import Mathlib

/-!
Shallow embedding of the message-graph reconstruction and transformation
engine of `telegram_to_mattermost/migrate.py`, together with proofs about
the behaviour of its core functions (`_transform_text`, `_transform_message`,
`_find_top_parent`, `_build_reply_structure`, `_attach_replies`,
`_convert_messages`).

Python dictionaries keyed by message identifier are embedded as association
lists with overwrite-on-insert semantics; the mutable `attachments` set is
embedded as a duplicate-free list threaded through the pass; raised
exceptions (`KeyError` on a missing `from_id` or `date`) are embedded as
`Except.error`; `None` returns are `Option.none`.
-/

namespace TgMm

/-- Association-list lookup: first entry whose key matches (keys are kept
unique by `alinsert`, mirroring a Python dict). -/
def alookup {κ α : Type} [DecidableEq κ] : List (κ × α) → κ → Option α
  | [], _ => none
  | (k, v) :: rest, key => if k = key then some v else alookup rest key

/-- Association-list insert with overwrite, mirroring `d[k] = v` on a
Python dict (insertion order of keys is preserved). -/
def alinsert {κ α : Type} [DecidableEq κ] : List (κ × α) → κ → α → List (κ × α)
  | [], k, v => [(k, v)]
  | (k', v') :: rest, k, v =>
      if k' = k then (k, v) :: rest else (k', v') :: alinsert rest k v

/-- Add one path to the attachment set (`attachments.add(p)` on a Python
set): no duplicate is ever inserted. -/
def addPath (att : List String) (p : String) : List String :=
  if p ∈ att then att else att ++ [p]

/-- Add several paths to the attachment set in order. -/
def addAll (att : List String) : List String → List String
  | [] => att
  | p :: ps => addAll (addPath att p) ps

/-- One element of a Telegram rich-text list: a bare string, a tagged span
(with the `type`, `text` and `user_id` keys each possibly missing), or a
value of any other shape (skipped with a diagnostic by the source). -/
inductive TextElem : Type
  | str (s : String)
  | elem (ty : Option String) (tx : Option String) (uid : Option Int)
  | invalid
deriving DecidableEq, Repr

/-- The `text` value of a raw message: either a plain string or a list of
rich-text elements. -/
inductive TextContent : Type
  | str (s : String)
  | elems (l : List TextElem)
deriving DecidableEq, Repr

/-- One raw Telegram message record, with every key the engine reads made
an explicit optional field. -/
structure Message : Type where
  type : Option String
  id : Option Int
  from_id : Option String
  date : Option String
  edited : Option String
  text : Option TextContent
  sticker_emoji : Option String
  reply_to_message_id : Option Int
  file : Option String
  photo : Option String
  media_type : Option String
deriving DecidableEq, Repr

/-- A raw message with every field absent; concrete records override the
fields they carry. -/
def emptyMsg : Message :=
  { type := none, id := none, from_id := none, date := none, edited := none,
    text := none, sticker_emoji := none, reply_to_message_id := none,
    file := none, photo := none, media_type := none }

/-- The migrator configuration consumed by the engine.  `users` and
`mentions` are dicts embedded as ordered association lists (`mentions = []`
plays the role of a missing or empty mapping, both falsy in Python);
`date_to_epoch` abstracts `_date_to_epoch` (ISO parsing under the
configured zone is an external collaborator; the engine only applies it). -/
structure Config : Type where
  chat_type : String
  users : List (String × String)
  mentions : List (String × String)
  import_channel : String
  import_team : String
  date_to_epoch : String → Int

/-- The inner post dictionary of a transformed message
(`mm_msg[msg_type]` in the source) as `_transform_message` produces it:
rendered text, resolved author, epochs, destination metadata and
attachment paths.  `props` records whether the `props` key was set (the
source sets it to a constant whenever an attachment is processed).
`_transform_message` never creates a `replies` key, so nested reply
contents are exactly values of this type; the key added by
`_attach_replies` on the thread root lives in `OutMsg.replies` below. -/
structure PostBody : Type where
  message : String
  user : String
  create_at : Int
  edit_at : Int
  channel_members : Option (List String)
  channel : Option String
  team : Option String
  attachments : List String
  props : Bool
deriving DecidableEq, Repr

/-- A transformed message envelope (`mm_msg` in the source): its outer
`type` tag, the original message id, and the inner content dictionary. -/
structure MMsg : Type where
  type : String
  id : Option Int
  content : PostBody
deriving DecidableEq, Repr

/-- An emitted root envelope: the transformed message together with the
optional ordered `replies` list that `_attach_replies` may add inside the
content dictionary (`none` embeds an absent `replies` key; the nested
contents never carry one, so nesting is one structural level deep by
construction, as in the source). -/
structure OutMsg : Type where
  type : String
  id : Option Int
  content : PostBody
  replies : Option (List PostBody)
deriving DecidableEq, Repr

/-- `TEXT_TYPES_TO_CONVERT_TO_PLAIN_TEXT`. -/
def plainTextTypes : List String :=
  ["link", "bot_command", "email", "text_link", "phone", "hashtag",
   "cashtag", "bank_card"]

/-- `_transform_basic_text`: plain text, links, commands and similar span
kinds pass through verbatim; everything else yields the empty string. -/
def transform_basic_text (ty tx : String) : String :=
  if ty ∈ plainTextTypes then tx else ""

/-- `_transform_formatting`: bold, italic, underline, strikethrough and
inline code markup. -/
def transform_formatting (ty tx : String) : String :=
  if ty = "code" then "`" ++ tx ++ "`"
  else if ty = "bold" then "**" ++ tx ++ "**"
  else if ty = "italic" then "_" ++ tx ++ "_"
  else if ty = "underline" then "**_" ++ tx ++ "_**"
  else if ty = "strikethrough" then "~~" ++ tx ++ "~~"
  else ""

/-- `_transform_blocks`: pre and blockquote markup. -/
def transform_blocks (ty tx : String) : String :=
  if ty = "pre" then "\n```\n" ++ tx ++ "\n```\n"
  else if ty = "blockquote" then "\n> " ++ tx ++ "\n"
  else ""

/-- `text.lstrip("@")`: drop every leading at-sign. -/
def lstripAt (s : String) : String :=
  String.mk (s.data.dropWhile (fun c => c = '@'))

/-- `_transform_mentions`.  `none` embeds the `ValueError` raised when a
`mention_name` span carries no `user_id` (the caller catches it); an
unknown `mention_name` user falls through to the final `return ""`. -/
def transform_mentions (cfg : Config) (ty tx : String) (uid : Option Int) :
    Option String :=
  if ty = "mention_name" then
    match uid with
    | none => none
    | some u =>
      match alookup cfg.users ("user" ++ toString u) with
      | some name => some ("@" ++ name)
      | none => some ""
  else if ty = "mention" then
    let mtext := lstripAt tx
    match cfg.mentions, alookup cfg.mentions mtext with
    | [], _ => some tx
    | _ :: _, some mapped => some ("@" ++ mapped)
    | _ :: _, none => some tx
  else some ""

/-- The `or`-chain of `_transform_text`: try each transformation in order,
taking the first non-empty fragment; `none` embeds a raised exception. -/
def span_transform (cfg : Config) (ty tx : String) (uid : Option Int) :
    Option String :=
  let b := transform_basic_text ty tx
  if b ≠ "" then some b else
  let f := transform_formatting ty tx
  if f ≠ "" then some f else
  let bl := transform_blocks ty tx
  if bl ≠ "" then some bl else
  transform_mentions cfg ty tx uid

/-- The loop body of `_transform_text`: the list of fragments appended to
`result` (bare strings unconditionally; spans only when their transform is
non-empty; malformed or failing spans skipped). -/
def transform_text_frags (cfg : Config) : List TextElem → List String
  | [] => []
  | .str s :: rest => s :: transform_text_frags cfg rest
  | .invalid :: rest => transform_text_frags cfg rest
  | .elem none _ _ :: rest => transform_text_frags cfg rest
  | .elem (some _) none _ :: rest => transform_text_frags cfg rest
  | .elem (some ty) (some tx) uid :: rest =>
    match span_transform cfg ty tx uid with
    | some s =>
        if s = "" then transform_text_frags cfg rest
        else s :: transform_text_frags cfg rest
    | none => transform_text_frags cfg rest

/-- `_transform_text`: concatenate the collected fragments. -/
def transform_text (cfg : Config) (l : List TextElem) : String :=
  String.join (transform_text_frags cfg l)

/-- The markup fragment contributed by a single element (spans whose
transform is empty, fails, or is malformed contribute the empty string). -/
def span_fragment (cfg : Config) : TextElem → String
  | .str s => s
  | .invalid => ""
  | .elem none _ _ => ""
  | .elem (some _) none _ => ""
  | .elem (some ty) (some tx) uid => (span_transform cfg ty tx uid).getD ""

/-- `_get_message_text`: rich-text lists are transformed; an empty plain
string with a sticker glyph renders as the glyph; otherwise the plain text
(empty when the key is absent). -/
def get_message_text (cfg : Config) (m : Message) : String :=
  match m.text with
  | some (.elems l) => transform_text cfg l
  | some (.str s) =>
      if s = "" then
        match m.sticker_emoji with
        | some e => e
        | none => s
      else s
  | none => ""

/-- `TG_TO_MM_TYPE`: the Telegram-kind to Mattermost-kind mapping. -/
def tg_to_mm_type (t : String) : Option String :=
  if t = "message" then some "post"
  else if t = "personal_chat" then some "direct_chat"
  else if t = "private_supergroup" then some "channel"
  else if t = "public_supergroup" then some "channel"
  else if t = "private_channel" then some "channel"
  else if t = "public_channel" then some "channel"
  else none

/-- The attachment paths the `for attach_type in ("file", "photo")` loop
of `_transform_message` processes: the file path unless its media kind is
a sticker, then the photo path. -/
def msg_attach_paths (m : Message) : List String :=
  (match m.file with
   | some p => if m.media_type = some "sticker" then [] else [p]
   | none => []) ++
  (match m.photo with
   | some p => [p]
   | none => [])

/-- `_transform_message`.  `Except.error` embeds the `KeyError` raised on
a direct subscript of a missing key (`msg["from_id"]`, `msg["date"]`);
`Option.none` embeds the `return None` skip paths (missing kind tag,
unmapped kind tag, author not in the identity map).  The mutable
`attachments` set of the source receives exactly the envelope's own
paths; callers perform that update with `addAll` beside each call. -/
def transform_message (cfg : Config) (m : Message) :
    Except String (Option MMsg) :=
  match m.type with
  | none => .ok none
  | some mtype =>
    let is_direct := cfg.chat_type = "direct_chat"
    match (if is_direct then some "direct_post" else tg_to_mm_type mtype) with
    | none => .ok none
    | some msg_type =>
      match m.from_id with
      | none => .error "KeyError: from_id"
      | some fid =>
        match alookup cfg.users fid with
        | none => .ok none
        | some uname =>
          let text := get_message_text cfg m
          match m.date with
          | none => .error "KeyError: date"
          | some d =>
            let paths := msg_attach_paths m
            .ok (some
              { type := msg_type
                id := m.id
                content :=
                  { message := text
                    user := uname
                    create_at := cfg.date_to_epoch d
                    edit_at :=
                      match m.edited with
                      | some e => cfg.date_to_epoch e
                      | none => 0
                    channel_members :=
                      if is_direct then some (cfg.users.map Prod.snd) else none
                    channel :=
                      if is_direct then none else some cfg.import_channel
                    team :=
                      if is_direct then none else some cfg.import_team
                    attachments := paths
                    props := !paths.isEmpty } })

/-- The loop body of the first loop of `_build_reply_structure`: a record
carrying an identifier is registered in the by-identifier dict, and in the
reply index as well when it declares a reply target. -/
def brm_step (acc : List (Int × Int) × List (Int × Message)) (m : Message) :
    List (Int × Int) × List (Int × Message) :=
  match m.id with
  | some i =>
    match m.reply_to_message_id with
    | some t => (alinsert acc.1 i t, alinsert acc.2 i m)
    | none => (acc.1, alinsert acc.2 i m)
  | none => acc

/-- The `reply_to` and `message_by_id` dicts built by the first loop of
`_build_reply_structure` (both only populated for records carrying an
identifier). -/
def build_reply_maps (msgs : List Message) :
    List (Int × Int) × List (Int × Message) :=
  msgs.foldl brm_step ([], [])

/-- `_find_top_parent`: walk the reply index upwards maintaining the
visited set; a revisit stops the walk (cycle break).  Termination: each
recursive step consumes one unvisited key of the reply index. -/
def find_top_parent (reply_map : List (Int × Int)) (msg_id : Int)
    (visited : List Int) : Int :=
  if msg_id ∈ visited then msg_id
  else
    match h : alookup reply_map msg_id with
    | some p => find_top_parent reply_map p (msg_id :: visited)
    | none => msg_id
termination_by ((reply_map.map Prod.fst).toFinset \ visited.toFinset).card
decreasing_by
  have hkey : msg_id ∈ reply_map.map Prod.fst := by
    clear * - h
    induction reply_map with
    | nil => simp [alookup] at h
    | cons hd tl ih =>
      rw [alookup] at h
      by_cases hk : hd.1 = msg_id
      · simp [hk]
      · simp only [hk, if_false] at h
        simp [ih h]
  apply Finset.card_lt_card
  constructor
  · intro x hx
    simp only [Finset.mem_sdiff, List.mem_toFinset, List.toFinset_cons,
      Finset.mem_insert] at hx ⊢
    exact ⟨hx.1, fun hc => hx.2 (Or.inr hc)⟩
  · intro hsub
    have hm : msg_id ∈ (reply_map.map Prod.fst).toFinset \ visited.toFinset := by
      simp only [Finset.mem_sdiff, List.mem_toFinset]
      exact ⟨hkey, by assumption⟩
    have h2 := hsub hm
    simp only [Finset.mem_sdiff, List.mem_toFinset, List.toFinset_cons,
      Finset.mem_insert] at h2
    exact h2.2 (Or.inl trivial)

/-- Fuel-bounded variant of the same walk, used to state termination
explicitly: `none` means the fuel ran out. -/
def find_top_parent_fuel (fuel : Nat) (reply_map : List (Int × Int))
    (msg_id : Int) (visited : List Int) : Option Int :=
  match fuel with
  | 0 => none
  | fuel + 1 =>
    if msg_id ∈ visited then some msg_id
    else
      match alookup reply_map msg_id with
      | some p => find_top_parent_fuel fuel reply_map p (msg_id :: visited)
      | none => some msg_id

/-- `replies.setdefault(top_parent, []).append(msg)`. -/
def append_entry (acc : List (Int × List Message)) (k : Int) (m : Message) :
    List (Int × List Message) :=
  match alookup acc k with
  | some l => alinsert acc k (l ++ [m])
  | none => acc ++ [(k, [m])]

/-- The loop body of the second loop of `_build_reply_structure`: resolve
a replying message's thread root and append the message to that root's
thread, unless the root names no message of the archive. -/
def brs_step (maps : List (Int × Int) × List (Int × Message))
    (acc : List (Int × List Message)) (m : Message) :
    List (Int × List Message) :=
  match m.reply_to_message_id with
  | some tgt =>
    let top := find_top_parent maps.1 tgt []
    match alookup maps.2 top with
    | some _ => append_entry acc top m
    | none => acc
  | none => acc

/-- `_build_reply_structure`: resolve every replying message's thread
root and collect the threads, dropping messages whose resolved root names
no message of the archive. -/
def build_reply_structure (msgs : List Message) :
    List (Int × List Message) :=
  msgs.foldl (brs_step (build_reply_maps msgs)) []

/-- The `reply_content.pop(key, None)` loop of `_attach_replies`: remove
the channel and team keys from a nested reply's content. -/
def strip_reply_content (c : PostBody) : PostBody :=
  { c with channel := none, team := none }

/-- The reply loop of `_attach_replies`: transform each descendant,
skipping those that fail transformation (`None`), raise (exception
caught), or whose transformed envelope lacks the root's post-kind key
(`transformed[msg_type]` would raise a caught `KeyError`); strip channel
and team from each kept content.  Returns the collected contents and the
updated attachment set. -/
def process_replies (cfg : Config) (mtype : String) :
    List Message → List String → List PostBody × List String
  | [], att => ([], att)
  | r :: rest, att =>
    match transform_message cfg r with
    | .error _ => process_replies cfg mtype rest att
    | .ok none => process_replies cfg mtype rest att
    | .ok (some t) =>
      let att' := addAll att t.content.attachments
      if t.type = mtype then
        let res := process_replies cfg mtype rest att'
        (strip_reply_content t.content :: res.1, res.2)
      else process_replies cfg mtype rest att'

/-- `_attach_replies`: on a post envelope whose truthy identifier has a
thread entry, set the `replies` key to the processed descendant contents;
otherwise leave the envelope untouched (note `if not msg_id` also treats
identifier `0` as missing). -/
def attach_replies (cfg : Config) (msg : MMsg)
    (replies : List (Int × List Message)) (att : List String) :
    OutMsg × List String :=
  if msg.type = "post" ∨ msg.type = "direct_post" then
    match msg.id with
    | none => (⟨msg.type, msg.id, msg.content, none⟩, att)
    | some i =>
      if i = 0 then (⟨msg.type, msg.id, msg.content, none⟩, att)
      else
        match alookup replies i with
        | none => (⟨msg.type, msg.id, msg.content, none⟩, att)
        | some rs =>
          let res := process_replies cfg msg.type rs att
          (⟨msg.type, msg.id, msg.content, some res.1⟩, res.2)
  else (⟨msg.type, msg.id, msg.content, none⟩, att)

/-- `_convert_messages`: skip service records, transform every other
record (a raised `KeyError` aborts the whole pass), attach replies to and
emit the records that transformed successfully and carry no reply
target.  The JSONL version header is serialization, outside the model;
the result is the ordered list of emitted envelopes plus the final
attachment set. -/
def convert_messages (cfg : Config) (replies : List (Int × List Message)) :
    List Message → List String → Except String (List OutMsg × List String)
  | [], att => .ok ([], att)
  | m :: rest, att =>
    if m.type = some "service" then convert_messages cfg replies rest att
    else
      match transform_message cfg m with
      | .error e => .error e
      | .ok none => convert_messages cfg replies rest att
      | .ok (some t) =>
        let att' := addAll att t.content.attachments
        match m.reply_to_message_id with
        | none =>
          let res := attach_replies cfg t replies att'
          match convert_messages cfg replies rest res.2 with
          | .error e => .error e
          | .ok (out, attF) => .ok (res.1 :: out, attF)
        | some _ => convert_messages cfg replies rest att'

/-- The conversion pass of `convert`: build the reply structure, then
convert the message list against it starting from an empty attachment
set. -/
def run_conversion (cfg : Config) (msgs : List Message) :
    Except String (List OutMsg × List String) :=
  convert_messages cfg (build_reply_structure msgs) msgs []

/-- What `_convert_messages` emits for one record, as a function of the
record alone (the envelope does not depend on the attachment-set state):
`none` for service records, failed transforms, raising transforms and
records carrying a reply target. -/
def emit_root (cfg : Config) (replies : List (Int × List Message))
    (m : Message) : Option OutMsg :=
  if m.type = some "service" then none
  else
    match transform_message cfg m with
    | .error _ => none
    | .ok none => none
    | .ok (some t) =>
      match m.reply_to_message_id with
      | none => some (attach_replies cfg t replies []).1
      | some _ => none

/-- Whether a record transforms to an envelope (neither skip nor raise). -/
def is_transform_some (cfg : Config) (m : Message) : Bool :=
  match transform_message cfg m with
  | .ok (some _) => true
  | _ => false

/-- Whether transforming a record raises (a `KeyError` in the source). -/
def transform_raises (cfg : Config) (m : Message) : Bool :=
  match transform_message cfg m with
  | .error _ => true
  | .ok _ => false

/-- The thread root a record's declared reply target resolves to, if it
declares one. -/
def resolved_root (msgs : List Message) (m : Message) : Option Int :=
  match m.reply_to_message_id with
  | some tgt => some (find_top_parent (build_reply_maps msgs).1 tgt [])
  | none => none

/-- The post kind `_transform_message` assigns to a `message` record
under a given configuration. -/
def post_kind (cfg : Config) : String :=
  if cfg.chat_type = "direct_chat" then "direct_post" else "post"

/-- The content `_transform_message` produces for a plain-text `message`
record with no edit stamp and no attachments. -/
def mk_body (cfg : Config) (uname d tx : String) : PostBody :=
  { message := tx
    user := uname
    create_at := cfg.date_to_epoch d
    edit_at := 0
    channel_members :=
      if cfg.chat_type = "direct_chat" then some (cfg.users.map Prod.snd)
      else none
    channel := if cfg.chat_type = "direct_chat" then none else some cfg.import_channel
    team := if cfg.chat_type = "direct_chat" then none else some cfg.import_team
    attachments := []
    props := false }

/-! Parametric linear reply chain of depth `n` below one root (claim
C3): the root has identifier `r`, and chain member `k` has identifier
`r + k + 1` and replies to `r + k`. -/

/-- One chain member. -/
def chain_msg (author : String) (i p : Int) (d tx : String) : Message :=
  { emptyMsg with
    type := some "message", id := some i, from_id := some author,
    date := some d, text := some (.str tx), reply_to_message_id := some p }

/-- The chain root. -/
def chain_root (author : String) (r : Int) (d tx : String) : Message :=
  { emptyMsg with
    type := some "message", id := some r, from_id := some author,
    date := some d, text := some (.str tx) }

/-- Chain members `k`, `k + 1`, …, `k + n - 1`. -/
def chain_msgs (author : String) (dates texts : Nat → String) (r : Int) :
    Nat → Nat → List Message
  | _, 0 => []
  | k, n + 1 =>
    chain_msg author (r + (k : Int) + 1) (r + (k : Int)) (dates k) (texts k) ::
      chain_msgs author dates texts r (k + 1) n

/-- The full archive: the root followed by the chain, in archive order. -/
def chain_input (author : String) (dates texts : Nat → String) (r : Int)
    (d0 t0 : String) (n : Nat) : List Message :=
  chain_root author r d0 t0 :: chain_msgs author dates texts r 0 n

/-- The reply index the chain gives rise to. -/
def chain_rmap (r : Int) : Nat → Nat → List (Int × Int)
  | _, 0 => []
  | k, n + 1 =>
    (r + (k : Int) + 1, r + (k : Int)) :: chain_rmap r (k + 1) n

/-- The by-identifier map entries the chain gives rise to. -/
def chain_bmap (author : String) (dates texts : Nat → String) (r : Int) :
    Nat → Nat → List (Int × Message)
  | _, 0 => []
  | k, n + 1 =>
    (r + (k : Int) + 1,
      chain_msg author (r + (k : Int) + 1) (r + (k : Int)) (dates k) (texts k)) ::
      chain_bmap author dates texts r (k + 1) n

/-- The nested reply contents the chain collapses to. -/
def chain_bodies (cfg : Config) (uname : String) (dates texts : Nat → String) :
    Nat → Nat → List PostBody
  | _, 0 => []
  | k, n + 1 =>
    strip_reply_content (mk_body cfg uname (dates k) (texts k)) ::
      chain_bodies cfg uname dates texts (k + 1) n

/-! Concrete fixtures for the counterexamples and witnesses. -/

/-- A channel-mode configuration (`chat_type` is set to `post` by
`convert` for every non-personal archive). -/
def chanCfg : Config :=
  { chat_type := "post", users := [("user1", "alice"), ("user2", "bob")],
    mentions := [], import_channel := "town-square", import_team := "main",
    date_to_epoch := fun _ => 0 }

/-- A direct-chat configuration. -/
def dirCfg : Config :=
  { chat_type := "direct_chat",
    users := [("user1", "alice"), ("user2", "bob")],
    mentions := [], import_channel := "town-square", import_team := "main",
    date_to_epoch := fun _ => 0 }

/-- A well-formed content message replying to identifier 999, which no
record of its archive carries. -/
def dangMsg : Message :=
  { emptyMsg with
    type := some "message", id := some 1, from_id := some "user1",
    date := some "2022-01-01T00:00:00", text := some (.str "hi"),
    reply_to_message_id := some 999 }

/-- First half of a mutual-reply pair: replies to identifier 2. -/
def cycA : Message :=
  { emptyMsg with
    type := some "message", id := some 1, from_id := some "user1",
    date := some "2022-01-01T00:00:00", text := some (.str "First"),
    reply_to_message_id := some 2 }

/-- Second half of a mutual-reply pair: replies to identifier 1. -/
def cycB : Message :=
  { emptyMsg with
    type := some "message", id := some 2, from_id := some "user2",
    date := some "2022-01-01T00:01:00", text := some (.str "Second"),
    reply_to_message_id := some 1 }

/-- A service record without a reply target. -/
def svcMsg : Message :=
  { emptyMsg with
    type := some "service", id := some 7, from_id := some "user1",
    date := some "2022-01-01T00:00:00", text := some (.str "joined") }

/-- A plain root message with identifier 1. -/
def rootA : Message :=
  { emptyMsg with
    type := some "message", id := some 1, from_id := some "user1",
    date := some "d1", text := some (.str "hello") }

/-- A service record carrying identifier 10 (a thread root). -/
def svcRoot9 : Message :=
  { emptyMsg with
    type := some "service", id := some 10, from_id := some "user1",
    date := some "d0", text := some (.str "created") }

/-- A content record replying to the service record 10. -/
def svcChild9 : Message :=
  { emptyMsg with
    type := some "message", id := some 11, from_id := some "user2",
    date := some "d1", text := some (.str "re-service"),
    reply_to_message_id := some 10 }

/-- A service record replying to identifier 1 and lacking the `date`
key. -/
def svcReply : Message :=
  { emptyMsg with
    type := some "service", id := some 2, from_id := some "user2",
    text := some (.str "pinned"), reply_to_message_id := some 1 }

/-- A content record lacking the `date` key. -/
def badDateMsg : Message :=
  { emptyMsg with
    type := some "message", id := some 3, from_id := some "user1",
    text := some (.str "no stamp") }

/-- A content reply to identifier 1. -/
def dReply : Message :=
  { emptyMsg with
    type := some "message", id := some 2, from_id := some "user2",
    date := some "d2", text := some (.str "re"),
    reply_to_message_id := some 1 }

/-- A root carrying one photo. -/
def photoRoot : Message :=
  { emptyMsg with
    type := some "message", id := some 1, from_id := some "user1",
    date := some "d1", text := some (.str "pic"),
    photo := some "photos/a.jpg" }

/-- A reply to the photo root carrying one generic file. -/
def fileReply : Message :=
  { emptyMsg with
    type := some "message", id := some 2, from_id := some "user2",
    date := some "d2", text := some (.str "doc"),
    reply_to_message_id := some 1, file := some "files/b.pdf" }

/-- The transformed content of the photo root. -/
def photoRootBody : PostBody :=
  { message := "pic", user := "alice", create_at := 0, edit_at := 0,
    channel_members := none, channel := some "town-square",
    team := some "main", attachments := ["photos/a.jpg"], props := true }

/-- The transformed content of the file reply (before stripping). -/
def fileReplyBody : PostBody :=
  { message := "doc", user := "bob", create_at := 0, edit_at := 0,
    channel_members := none, channel := some "town-square",
    team := some "main", attachments := ["files/b.pdf"], props := true }

/-- A root message with identifier 0. -/
def zeroRoot : Message :=
  { emptyMsg with
    type := some "message", id := some 0, from_id := some "user1",
    date := some "d1", text := some (.str "zero") }

/-- A content reply to identifier 0. -/
def zeroReply : Message :=
  { emptyMsg with
    type := some "message", id := some 5, from_id := some "user2",
    date := some "d2", text := some (.str "re0"),
    reply_to_message_id := some 0 }

/-! ### Association-list lemmas -/

/-- Key-membership from a successful association-list lookup. -/
theorem mem_keys_of_alookup {κ α : Type} [DecidableEq κ]
    {l : List (κ × α)} {k : κ} {v : α} (h : alookup l k = some v) :
    k ∈ l.map Prod.fst := by
  induction l with
  | nil => simp [alookup] at h
  | cons hd tl ih =>
    rw [alookup] at h
    by_cases hk : hd.1 = k
    · simp [hk]
    · simp only [hk, if_false] at h
      simp [ih h]

/-- The termination measure of `_find_top_parent` strictly drops at each
recursive call: visiting an unvisited key of the reply index shrinks the
set of unvisited keys. -/
theorem walk_measure_lt {reply_map : List (Int × Int)} {msg_id : Int}
    {visited : List Int} {p : Int} (hv : msg_id ∉ visited)
    (hl : alookup reply_map msg_id = some p) :
    ((reply_map.map Prod.fst).toFinset \ (msg_id :: visited).toFinset).card <
      ((reply_map.map Prod.fst).toFinset \ visited.toFinset).card := by
  apply Finset.card_lt_card
  constructor
  · intro x hx
    simp only [Finset.mem_sdiff, List.mem_toFinset, List.toFinset_cons,
      Finset.mem_insert] at hx ⊢
    exact ⟨hx.1, fun hc => hx.2 (Or.inr hc)⟩
  · intro hsub
    have hm : msg_id ∈ (reply_map.map Prod.fst).toFinset \ visited.toFinset := by
      simp only [Finset.mem_sdiff, List.mem_toFinset]
      exact ⟨mem_keys_of_alookup hl, hv⟩
    have h2 := hsub hm
    simp only [Finset.mem_sdiff, List.mem_toFinset, List.toFinset_cons,
      Finset.mem_insert] at h2
    exact h2.2 (Or.inl trivial)

theorem alookup_alinsert_self {κ α : Type} [DecidableEq κ]
    (l : List (κ × α)) (k : κ) (v : α) :
    alookup (alinsert l k v) k = some v := by
  induction l with
  | nil => simp [alinsert, alookup]
  | cons hd tl ih =>
    rw [alinsert]
    by_cases hk : hd.1 = k
    · simp [hk, alookup]
    · simp [hk, alookup, ih]

theorem alookup_alinsert_ne {κ α : Type} [DecidableEq κ]
    (l : List (κ × α)) (k k' : κ) (v : α) (hk : k' ≠ k) :
    alookup (alinsert l k v) k' = alookup l k' := by
  induction l with
  | nil =>
    simp only [alinsert, alookup]
    rw [if_neg (fun h => hk h.symm)]
  | cons hd tl ih =>
    obtain ⟨a, b⟩ := hd
    rw [alinsert]
    by_cases hh : a = k
    · subst hh
      rw [if_pos rfl, alookup, alookup,
        if_neg (fun h => hk h.symm), if_neg (fun h => hk h.symm)]
    · rw [if_neg hh, alookup, alookup]
      by_cases hh' : a = k'
      · simp [hh']
      · simp [hh', ih]

theorem alookup_append_left {κ α : Type} [DecidableEq κ]
    {l₁ : List (κ × α)} (l₂ : List (κ × α)) {k : κ} {v : α}
    (h : alookup l₁ k = some v) :
    alookup (l₁ ++ l₂) k = some v := by
  induction l₁ with
  | nil => simp [alookup] at h
  | cons hd tl ih =>
    obtain ⟨a, b⟩ := hd
    rw [alookup] at h
    rw [List.cons_append, alookup]
    by_cases hk : a = k
    · simpa [hk] using h
    · simp only [hk, if_false] at h ⊢
      exact ih h

theorem alookup_append_right {κ α : Type} [DecidableEq κ]
    {l₁ : List (κ × α)} (l₂ : List (κ × α)) {k : κ}
    (h : alookup l₁ k = none) :
    alookup (l₁ ++ l₂) k = alookup l₂ k := by
  induction l₁ with
  | nil => simp
  | cons hd tl ih =>
    obtain ⟨a, b⟩ := hd
    rw [alookup] at h
    rw [List.cons_append, alookup]
    by_cases hk : a = k
    · simp [hk] at h
    · simp only [hk, if_false] at h ⊢
      exact ih h

theorem alinsert_fresh {κ α : Type} [DecidableEq κ]
    {l : List (κ × α)} {k : κ} (v : α) (h : k ∉ l.map Prod.fst) :
    alinsert l k v = l ++ [(k, v)] := by
  induction l with
  | nil => simp [alinsert]
  | cons hd tl ih =>
    simp only [List.map_cons, List.mem_cons] at h
    push_neg at h
    rw [alinsert, if_neg (fun hh => h.1 hh.symm), ih h.2]
    simp

theorem alookup_append_entry {k₀ : Int} (acc : List (Int × List Message))
    (m : Message) (k : Int) :
    alookup (append_entry acc k₀ m) k =
      if k = k₀ then some (((alookup acc k₀).getD []) ++ [m])
      else alookup acc k := by
  rw [append_entry]
  by_cases hk : k = k₀
  · subst hk
    match h : alookup acc k with
    | some l =>
      simp only [h, Option.getD_some, if_pos rfl]
      exact alookup_alinsert_self acc k (l ++ [m])
    | none =>
      simp only [h, Option.getD_none, if_pos rfl]
      rw [alookup_append_right _ h]
      simp [alookup]
  · match h : alookup acc k₀ with
    | some l =>
      simp only [h, if_neg hk]
      exact alookup_alinsert_ne acc k₀ k (l ++ [m]) hk
    | none =>
      simp only [h, if_neg hk]
      match h' : alookup acc k with
      | some v => exact alookup_append_left _ h'
      | none =>
        rw [alookup_append_right _ h']
        simp only [alookup]
        rw [if_neg (fun hh => hk hh.symm)]

/-! ### Attachment-set lemmas -/

theorem mem_addPath (att : List String) (p q : String) :
    q ∈ addPath att p ↔ q ∈ att ∨ q = p := by
  rw [addPath]
  by_cases hp : p ∈ att
  · simp only [hp, if_true]
    constructor
    · exact Or.inl
    · rintro (h | rfl) <;> assumption
  · simp [hp]

theorem mem_addAll (att : List String) (ps : List String) (q : String) :
    q ∈ addAll att ps ↔ q ∈ att ∨ q ∈ ps := by
  induction ps generalizing att with
  | nil => simp [addAll]
  | cons p rest ih =>
    rw [addAll, ih, mem_addPath]
    simp only [List.mem_cons]
    tauto

/-! ### Span-transformer lemmas -/

theorem join_cons (a : String) (l : List String) :
    String.join (a :: l) = a ++ String.join l := by
  apply String.ext
  simp [String.join_eq]

/-- The rendered text of a rich-text list is the ordered concatenation of
each element's fragment (empty fragments are appended or skipped
indifferently). -/
theorem transform_text_eq_join_fragments (cfg : Config) (l : List TextElem) :
    transform_text cfg l = String.join (l.map (span_fragment cfg)) := by
  rw [transform_text]
  induction l with
  | nil => simp [transform_text_frags]
  | cons e rest ih =>
    match e with
    | .str s =>
      rw [transform_text_frags, List.map_cons, join_cons, join_cons, ih,
        span_fragment]
    | .invalid =>
      rw [transform_text_frags, List.map_cons, join_cons, ih, span_fragment]
      simp
    | .elem ty tx uid =>
      match ty, tx with
      | some ty, some tx =>
        rw [transform_text_frags, List.map_cons, join_cons, span_fragment]
        match h : span_transform cfg ty tx uid with
        | some s =>
          by_cases hs : s = ""
          · subst hs
            simp [ih]
          · simp [hs, join_cons, ih]
        | none =>
          simp [ih]
      | some ty, none =>
        rw [transform_text_frags, List.map_cons, join_cons, ih, span_fragment]
        simp
      | none, tx =>
        rw [transform_text_frags, List.map_cons, join_cons, ih, span_fragment]
        simp

/-! ### Walk lemmas -/

/-- Unfolding equation of the visited-set walk. -/
theorem find_top_parent_eq (rm : List (Int × Int)) (i : Int)
    (v : List Int) :
    find_top_parent rm i v =
      if i ∈ v then i
      else
        match alookup rm i with
        | some p => find_top_parent rm p (i :: v)
        | none => i := by
  rw [find_top_parent]
  by_cases hv : i ∈ v
  · simp [hv]
  · simp only [hv, if_false]
    match hl : alookup rm i with
    | some p => simp [hl]
    | none => simp [hl]

/-- Fuel one past the number of unvisited reply-index keys always
suffices: the visited-set walk halts on every finite input, cycles
included, and agrees with its fuel-free form. -/
theorem find_top_parent_fuel_spec (rm : List (Int × Int)) :
    ∀ (n : Nat) (i : Int) (v : List Int),
      ((rm.map Prod.fst).toFinset \ v.toFinset).card ≤ n →
      find_top_parent_fuel (n + 1) rm i v = some (find_top_parent rm i v) := by
  intro n
  induction n with
  | zero =>
    intro i v hn
    rw [find_top_parent_fuel, find_top_parent_eq]
    by_cases hv : i ∈ v
    · simp [hv]
    · match hl : alookup rm i with
      | some p =>
        exact absurd (Nat.lt_of_lt_of_le (walk_measure_lt hv hl) hn)
          (Nat.not_lt_zero _)
      | none => simp [hv]
  | succ n ih =>
    intro i v hn
    rw [find_top_parent_fuel, find_top_parent_eq]
    by_cases hv : i ∈ v
    · simp [hv]
    · match hl : alookup rm i with
      | some p =>
        simp only [hv, if_false]
        exact ih p (i :: v)
          (Nat.lt_succ_iff.mp (Nat.lt_of_lt_of_le (walk_measure_lt hv hl) hn))
      | none => simp [hv]

/-! ### Reply-loop lemmas -/

/-- The contents collected by the reply loop do not depend on the state
of the attachment set. -/
theorem process_replies_fst_indep (cfg : Config) (mtype : String) :
    ∀ (l : List Message) (att att' : List String),
      (process_replies cfg mtype l att).1 = (process_replies cfg mtype l att').1 := by
  intro l
  induction l with
  | nil => intro att att'; rfl
  | cons r rest ih =>
    intro att att'
    match h : transform_message cfg r with
    | .error e => simp only [process_replies, h]; exact ih att att'
    | .ok none => simp only [process_replies, h]; exact ih att att'
    | .ok (some t) =>
      simp only [process_replies, h]
      by_cases ht : t.type = mtype
      · simp [if_pos ht,
          ih (addAll att t.content.attachments) (addAll att' t.content.attachments)]
      · simp only [if_neg ht]
        exact ih _ _

/-- Provenance of a collected nested-reply content: it is the stripped
content of a successfully transformed descendant whose envelope kind
matches the root's. -/
theorem process_replies_mem (cfg : Config) (mtype : String) :
    ∀ (l : List Message) (att : List String) (rc : PostBody),
      rc ∈ (process_replies cfg mtype l att).1 →
      ∃ m, m ∈ l ∧ ∃ t, transform_message cfg m = .ok (some t) ∧
        t.type = mtype ∧ rc = strip_reply_content t.content := by
  intro l
  induction l with
  | nil => intro att rc h; simp [process_replies] at h
  | cons r rest ih =>
    intro att rc h
    match ht : transform_message cfg r with
    | .error e =>
      simp only [process_replies, ht] at h
      obtain ⟨m, hm, rest'⟩ := ih _ _ h
      exact ⟨m, List.mem_cons_of_mem _ hm, rest'⟩
    | .ok none =>
      simp only [process_replies, ht] at h
      obtain ⟨m, hm, rest'⟩ := ih _ _ h
      exact ⟨m, List.mem_cons_of_mem _ hm, rest'⟩
    | .ok (some t) =>
      simp only [process_replies, ht] at h
      by_cases hty : t.type = mtype
      · simp only [if_pos hty, List.mem_cons] at h
        match h with
        | Or.inl hrc => exact ⟨r, List.mem_cons_self _ _, t, ht, hty, hrc⟩
        | Or.inr hrc =>
          obtain ⟨m, hm, rest'⟩ := ih _ _ hrc
          exact ⟨m, List.mem_cons_of_mem _ hm, rest'⟩
      · simp only [if_neg hty] at h
        obtain ⟨m, hm, rest'⟩ := ih _ _ h
        exact ⟨m, List.mem_cons_of_mem _ hm, rest'⟩

/-- A raising descendant is caught and skipped: the reply loop behaves as
if raising records were absent from the thread's descendant list. -/
theorem process_replies_filter_raises (cfg : Config) (mtype : String) :
    ∀ (l : List Message) (att : List String),
      process_replies cfg mtype l att =
        process_replies cfg mtype
          (l.filter (fun m => !transform_raises cfg m)) att := by
  intro l
  induction l with
  | nil => intro att; rfl
  | cons r rest ih =>
    intro att
    match ht : transform_message cfg r with
    | .error e =>
      have hr : transform_raises cfg r = true := by
        rw [transform_raises, ht]
      rw [List.filter_cons]
      simp only [hr, Bool.not_true, Bool.false_eq_true, if_false]
      simp only [process_replies, ht]
      exact ih att
    | .ok o =>
      have hr : transform_raises cfg r = false := by
        rw [transform_raises, ht]
      rw [List.filter_cons]
      simp only [hr, Bool.not_false, if_true]
      match o with
      | none => simp only [process_replies, ht]; exact ih att
      | some t =>
        simp only [process_replies, ht]
        by_cases hty : t.type = mtype
        · simp only [if_pos hty, ih]
        · simp only [if_neg hty, ih]

/-! ### Attachment-step lemmas -/

/-- `_attach_replies` only ever adds the replies key: the envelope's
kind, identifier and content are returned unchanged. -/
theorem attach_replies_fields (cfg : Config) (msg : MMsg)
    (rm : List (Int × List Message)) (att : List String) :
    (attach_replies cfg msg rm att).1.type = msg.type ∧
    (attach_replies cfg msg rm att).1.id = msg.id ∧
    (attach_replies cfg msg rm att).1.content = msg.content := by
  rw [attach_replies]
  split
  · split
    · exact ⟨rfl, rfl, rfl⟩
    · split
      · exact ⟨rfl, rfl, rfl⟩
      · split
        · exact ⟨rfl, rfl, rfl⟩
        · exact ⟨rfl, rfl, rfl⟩
  · exact ⟨rfl, rfl, rfl⟩

/-- The envelope returned by `_attach_replies` does not depend on the
state of the attachment set. -/
theorem attach_replies_fst_indep (cfg : Config) (msg : MMsg)
    (rm : List (Int × List Message)) (att att' : List String) :
    (attach_replies cfg msg rm att).1 = (attach_replies cfg msg rm att').1 := by
  rw [attach_replies, attach_replies]
  split
  · split
    · rfl
    · split
      · rfl
      · split
        · rfl
        · simp only []
          rw [process_replies_fst_indep cfg msg.type _ att att']
  · rfl

/-- An envelope whose identifier is `0` never receives a replies key
(the source's `if not msg_id` truthiness check). -/
theorem attach_replies_id_zero (cfg : Config) (msg : MMsg)
    (rm : List (Int × List Message)) (att : List String)
    (h : msg.id = some 0) :
    (attach_replies cfg msg rm att).1.replies = none := by
  rw [attach_replies]
  split
  · rw [h]
    simp
  · rfl

/-- If the returned envelope carries a replies key, its identifier was a
truthy key of the thread map and the list is the processed descendant
contents of its entry. -/
theorem attach_replies_replies_some (cfg : Config) (msg : MMsg)
    (rm : List (Int × List Message)) (att : List String)
    (rcs : List PostBody)
    (h : (attach_replies cfg msg rm att).1.replies = some rcs) :
    ∃ i rs, msg.id = some i ∧ i ≠ 0 ∧ alookup rm i = some rs ∧
      rcs = (process_replies cfg msg.type rs att).1 := by
  rw [attach_replies] at h
  split at h
  · match hid : msg.id with
    | none => rw [hid] at h; simp at h
    | some i =>
      rw [hid] at h
      simp only [] at h
      by_cases hz : i = 0
      · rw [if_pos hz] at h; simp at h
      · rw [if_neg hz] at h
        match hrs : alookup rm i with
        | none => rw [hrs] at h; simp at h
        | some rs =>
          rw [hrs] at h
          simp only [Option.some.injEq] at h
          exact ⟨i, rs, rfl, hz, hrs, h.symm⟩
  · simp at h

/-- The successful transform of a record keeps the record's identifier
and collects exactly the record's attachment paths. -/
theorem transform_message_some_spec (cfg : Config) (m : Message)
    (t : MMsg) (h : transform_message cfg m = .ok (some t)) :
    t.id = m.id ∧ t.content.attachments = msg_attach_paths m := by
  rw [transform_message] at h
  match hty : m.type with
  | none => rw [hty] at h; simp at h
  | some ty =>
    rw [hty] at h
    simp only [] at h
    match hmt : (if cfg.chat_type = "direct_chat" then some "direct_post"
        else tg_to_mm_type ty) with
    | none => rw [hmt] at h; simp at h
    | some mt =>
      rw [hmt] at h
      match hf : m.from_id with
      | none => simp [hf] at h
      | some f =>
        match hu : alookup cfg.users f with
        | none => simp [hf, hu] at h
        | some u =>
          match hd : m.date with
          | none => simp [hf, hu, hd] at h
          | some d =>
            simp only [hf, hu, hd, Except.ok.injEq, Option.some.injEq] at h
            subst h
            exact ⟨rfl, rfl⟩

/-- A record carrying a reply target is never emitted as a root. -/
theorem emit_root_of_reply (cfg : Config)
    (rm : List (Int × List Message)) (m : Message) (tgt : Int)
    (h : m.reply_to_message_id = some tgt) :
    emit_root cfg rm m = none := by
  rw [emit_root]
  split
  · rfl
  · split
    · rfl
    · rfl
    · rw [h]

/-- Provenance of an emitted root: a non-service record without a reply
target whose transform succeeded, sent through `_attach_replies`. -/
theorem emit_root_some_spec (cfg : Config)
    (rm : List (Int × List Message)) (m : Message) (e : OutMsg)
    (h : emit_root cfg rm m = some e) :
    m.type ≠ some "service" ∧ m.reply_to_message_id = none ∧
      ∃ t, transform_message cfg m = .ok (some t) ∧
        e = (attach_replies cfg t rm []).1 := by
  rw [emit_root] at h
  split at h
  · simp at h
  · rename_i hsvc
    split at h
    · simp at h
    · simp at h
    · rename_i t ht
      split at h
      · rename_i hrep
        simp only [Option.some.injEq] at h
        exact ⟨hsvc, hrep, t, ht, h.symm⟩
      · simp at h

/-- An emission for a transformable non-service record without a reply
target. -/
theorem emit_root_some_of (cfg : Config)
    (rm : List (Int × List Message)) (m : Message) (t : MMsg)
    (hsvc : m.type ≠ some "service") (hrep : m.reply_to_message_id = none)
    (ht : transform_message cfg m = .ok (some t)) :
    emit_root cfg rm m = some (attach_replies cfg t rm []).1 := by
  rw [emit_root, if_neg hsvc, ht, hrep]

/-- The emitted envelopes of `_convert_messages` are exactly the
per-record emissions, in original list order. -/
theorem convert_messages_out (cfg : Config)
    (rm : List (Int × List Message)) :
    ∀ (msgs : List Message) (att : List String) (out : List OutMsg)
      (attF : List String),
      convert_messages cfg rm msgs att = .ok (out, attF) →
      out = msgs.filterMap (emit_root cfg rm) := by
  intro msgs
  induction msgs with
  | nil =>
    intro att out attF h
    simp only [convert_messages, Except.ok.injEq, Prod.mk.injEq] at h
    simp [← h.1]
  | cons m rest ih =>
    intro att out attF h
    rw [convert_messages] at h
    rw [List.filterMap_cons]
    by_cases hsvc : m.type = some "service"
    · rw [if_pos hsvc] at h
      rw [emit_root, if_pos hsvc]
      exact ih _ _ _ h
    · rw [if_neg hsvc] at h
      match ht : transform_message cfg m with
      | .error e => rw [ht] at h; simp at h
      | .ok none =>
        rw [ht] at h
        rw [emit_root, if_neg hsvc, ht]
        exact ih _ _ _ h
      | .ok (some t) =>
        rw [ht] at h
        simp only [] at h
        match hrep : m.reply_to_message_id with
        | some tgt =>
          rw [hrep] at h
          rw [emit_root, if_neg hsvc, ht, hrep]
          exact ih _ _ _ h
        | none =>
          rw [hrep] at h
          simp only [] at h
          rw [emit_root_some_of cfg rm m t hsvc hrep ht]
          match hc : convert_messages cfg rm rest
              (attach_replies cfg t rm
                (addAll att t.content.attachments)).2 with
          | .error e => rw [hc] at h; simp at h
          | .ok (out', attF') =>
            rw [hc] at h
            simp only [Except.ok.injEq, Prod.mk.injEq] at h
            rw [← h.1, ih _ _ _ hc,
              attach_replies_fst_indep cfg t rm _ []]

/-- A raising non-service record anywhere in the message list aborts the
whole conversion pass (the error is not caught in `_convert_messages`). -/
theorem convert_messages_error (cfg : Config)
    (rm : List (Int × List Message)) :
    ∀ (msgs : List Message) (att : List String) (m : Message),
      m ∈ msgs → m.type ≠ some "service" → transform_raises cfg m = true →
      ∃ e, convert_messages cfg rm msgs att = .error e := by
  intro msgs
  induction msgs with
  | nil => intro att m hm; simp at hm
  | cons m₀ rest ih =>
    intro att m hm hsvc hraise
    rw [convert_messages]
    rcases List.mem_cons.mp hm with hm₀ | hmr
    · subst hm₀
      rw [if_neg hsvc]
      rw [transform_raises] at hraise
      match ht : transform_message cfg m with
      | .error e => exact ⟨e, rfl⟩
      | .ok o => rw [ht] at hraise; simp at hraise
    · by_cases hsvc₀ : m₀.type = some "service"
      · rw [if_pos hsvc₀]
        exact ih att m hmr hsvc hraise
      · rw [if_neg hsvc₀]
        match ht : transform_message cfg m₀ with
        | .error e => exact ⟨e, rfl⟩
        | .ok none => exact ih att m hmr hsvc hraise
        | .ok (some t) =>
          simp only []
          match hrep : m₀.reply_to_message_id with
          | some tgt => exact ih _ m hmr hsvc hraise
          | none =>
            obtain ⟨e, he⟩ := ih
              (attach_replies cfg t rm (addAll att t.content.attachments)).2
              m hmr hsvc hraise
            rw [he]
            exact ⟨e, rfl⟩

/-- A record that reaches the timestamp conversion with no `date` key
raises (`msg["date"]` is a `KeyError`). -/
theorem transform_missing_date (cfg : Config) (m : Message)
    (ty mt f u : String) (h1 : m.type = some ty)
    (h2 : (if cfg.chat_type = "direct_chat" then some "direct_post"
      else tg_to_mm_type ty) = some mt)
    (h3 : m.from_id = some f) (h4 : alookup cfg.users f = some u)
    (h5 : m.date = none) :
    transform_message cfg m = .error "KeyError: date" := by
  rw [transform_message, h1]
  simp only []
  rw [h2]
  simp [h3, h4, h5]

/-- Provenance of a thread-map entry: every member of the list stored
under a root identifier is a message of the archive whose declared reply
target resolves to that root, and the root names a message of the
archive. -/
theorem build_reply_structure_mem (msgs : List Message) (k : Int)
    (l : List Message) (m' : Message)
    (h : alookup (build_reply_structure msgs) k = some l) (hm : m' ∈ l) :
    m' ∈ msgs ∧ ∃ tgt, m'.reply_to_message_id = some tgt ∧
      find_top_parent (build_reply_maps msgs).1 tgt [] = k ∧
      (alookup (build_reply_maps msgs).2 k).isSome := by
  have main :
      ∀ (L : List Message) (acc : List (Int × List Message)),
        (∀ x ∈ L, x ∈ msgs) →
        (∀ k' l', alookup acc k' = some l' → ∀ y ∈ l',
          y ∈ msgs ∧ ∃ tgt, y.reply_to_message_id = some tgt ∧
            find_top_parent (build_reply_maps msgs).1 tgt [] = k' ∧
            (alookup (build_reply_maps msgs).2 k').isSome) →
        (∀ k' l', alookup (L.foldl (brs_step (build_reply_maps msgs)) acc) k'
            = some l' → ∀ y ∈ l',
          y ∈ msgs ∧ ∃ tgt, y.reply_to_message_id = some tgt ∧
            find_top_parent (build_reply_maps msgs).1 tgt [] = k' ∧
            (alookup (build_reply_maps msgs).2 k').isSome) := by
    intro L
    induction L with
    | nil => intro acc _ hacc; exact hacc
    | cons x rest ih =>
      intro acc hL hacc
      rw [List.foldl_cons]
      apply ih
      · intro y hy; exact hL y (List.mem_cons_of_mem _ hy)
      · intro k' l' hk' y hy
        rw [brs_step] at hk'
        match hrep : x.reply_to_message_id with
        | none =>
          rw [hrep] at hk'
          exact hacc k' l' hk' y hy
        | some tgt =>
          rw [hrep] at hk'
          simp only [] at hk'
          match htop : alookup (build_reply_maps msgs).2
              (find_top_parent (build_reply_maps msgs).1 tgt []) with
          | none =>
            rw [htop] at hk'
            exact hacc k' l' hk' y hy
          | some w =>
            rw [htop] at hk'
            rw [alookup_append_entry] at hk'
            by_cases hkk : k' = find_top_parent (build_reply_maps msgs).1 tgt []
            · subst hkk
              rw [if_pos rfl] at hk'
              simp only [Option.some.injEq] at hk'
              subst hk'
              rcases List.mem_append.mp hy with hy₁ | hy₂
              · match hprev : alookup acc
                    (find_top_parent (build_reply_maps msgs).1 tgt []) with
                | none => rw [hprev] at hy₁; simp at hy₁
                | some lprev =>
                  rw [hprev] at hy₁
                  exact hacc _ lprev hprev y hy₁
              · have hyx : y = x := by simpa using hy₂
                subst hyx
                refine ⟨hL y (List.mem_cons_self _ _), tgt, hrep, rfl, ?_⟩
                rw [htop]
                rfl
            · rw [if_neg hkk] at hk'
              exact hacc k' l' hk' y hy
  exact main msgs [] (fun x hx => hx)
    (fun k' l' hk' => by simp [alookup] at hk') k l h m' hm

/-! ### Linear-chain lemmas (claim C3) -/

/-- Folding the first loop of `_build_reply_structure` over the chain
appends one reply-index entry and one by-identifier entry per member. -/
theorem brm_fold_chain (author : String) (dates texts : Nat → String)
    (r : Int) :
    ∀ (n k : Nat) (acc : List (Int × Int) × List (Int × Message)),
      (∀ x ∈ acc.1.map Prod.fst, x < r + (k : Int) + 1) →
      (∀ x ∈ acc.2.map Prod.fst, x < r + (k : Int) + 1) →
      List.foldl brm_step acc (chain_msgs author dates texts r k n) =
        (acc.1 ++ chain_rmap r k n,
         acc.2 ++ chain_bmap author dates texts r k n) := by
  intro n
  induction n with
  | zero =>
    intro k acc h1 h2
    simp [chain_msgs, chain_rmap, chain_bmap]
  | succ n ih =>
    intro k acc h1 h2
    rw [chain_msgs, List.foldl_cons]
    have hstep : brm_step acc
        (chain_msg author (r + (k : Int) + 1) (r + (k : Int))
          (dates k) (texts k))
        = (acc.1 ++ [(r + (k : Int) + 1, r + (k : Int))],
           acc.2 ++ [(r + (k : Int) + 1,
             chain_msg author (r + (k : Int) + 1) (r + (k : Int))
               (dates k) (texts k))]) := by
      rw [brm_step]
      simp only [chain_msg, emptyMsg]
      rw [alinsert_fresh _ (fun hmem => absurd (h1 _ hmem) (by omega)),
        alinsert_fresh _ (fun hmem => absurd (h2 _ hmem) (by omega))]
    rw [hstep, ih (k + 1) _
      (by
        intro x hx
        simp only [List.map_append, List.mem_append] at hx
        rcases hx with hx | hx
        · have := h1 x hx
          push_cast
          omega
        · simp at hx
          push_cast
          omega)
      (by
        intro x hx
        simp only [List.map_append, List.mem_append] at hx
        rcases hx with hx | hx
        · have := h2 x hx
          push_cast
          omega
        · simp at hx
          push_cast
          omega)]
    rw [chain_rmap, chain_bmap]
    simp

/-- The reply maps of the chain archive. -/
theorem build_reply_maps_chain_input (author : String)
    (dates texts : Nat → String) (r : Int) (d0 t0 : String) (n : Nat) :
    build_reply_maps (chain_input author dates texts r d0 t0 n) =
      (chain_rmap r 0 n,
       (r, chain_root author r d0 t0) :: chain_bmap author dates texts r 0 n) := by
  rw [build_reply_maps, chain_input, List.foldl_cons]
  have h0 : brm_step ([], []) (chain_root author r d0 t0)
      = ([], [(r, chain_root author r d0 t0)]) := by
    rw [brm_step]
    simp [chain_root, emptyMsg, alinsert]
  rw [h0, brm_fold_chain author dates texts r n 0 _
    (by intro x hx; simp at hx)
    (by
      intro x hx
      simp at hx
      omega)]
  simp

/-- Identifiers below the chain's key range are absent from its reply
index. -/
theorem alookup_chain_rmap_lt (r : Int) :
    ∀ (n k : Nat) (x : Int), x < r + (k : Int) + 1 →
      alookup (chain_rmap r k n) x = none := by
  intro n
  induction n with
  | zero => intro k x hx; rfl
  | succ n ih =>
    intro k x hx
    rw [chain_rmap, alookup, if_neg (by omega)]
    exact ih (k + 1) x (by push_cast at hx ⊢; omega)

/-- Each chain identifier maps to its parent in the reply index. -/
theorem alookup_chain_rmap_at (r : Int) :
    ∀ (n k j : Nat), k ≤ j → j < k + n →
      alookup (chain_rmap r k n) (r + (j : Int) + 1) = some (r + (j : Int)) := by
  intro n
  induction n with
  | zero => intro k j h1 h2; omega
  | succ n ih =>
    intro k j h1 h2
    rw [chain_rmap, alookup]
    by_cases hkj : j = k
    · subst hkj
      rw [if_pos rfl]
    · rw [if_neg (fun hc => hkj (by omega))]
      exact ih (k + 1) j (by omega) (by omega)

/-- Walking the chain's reply index from any member resolves to the
root. -/
theorem ftp_chain (r : Int) (n : Nat) :
    ∀ (j : Nat), j ≤ n → ∀ (v : List Int),
      (∀ i : Nat, i ≤ j → (r + (i : Int)) ∉ v) →
      find_top_parent (chain_rmap r 0 n) (r + (j : Int)) v = r := by
  intro j
  induction j with
  | zero =>
    intro hj v hv
    rw [find_top_parent_eq, if_neg (hv 0 le_rfl)]
    have hl : alookup (chain_rmap r 0 n) r = none :=
      alookup_chain_rmap_lt r n 0 r (by push_cast; omega)
    simp [hl]
  | succ j ih =>
    intro hj v hv
    rw [find_top_parent_eq, if_neg (hv (j + 1) le_rfl)]
    have hl : alookup (chain_rmap r 0 n) (r + ((j + 1 : Nat) : Int))
        = some (r + (j : Int)) := by
      rw [show (r + ((j + 1 : Nat) : Int)) = r + (j : Int) + 1 by push_cast; ring]
      exact alookup_chain_rmap_at r n 0 j (Nat.zero_le _) (by omega)
    simp only [hl]
    exact ih (by omega) _ (by
      intro i hi
      simp only [List.mem_cons]
      push_neg
      exact ⟨by push_cast; omega, hv i (by omega)⟩)

/-- Folding the second loop of `_build_reply_structure` over chain
members appends each one to the root's thread, in order. -/
theorem brs_chain_inner (author : String) (dates texts : Nat → String)
    (r : Int) (d0 t0 : String) (n : Nat) :
    ∀ (m k : Nat), k + m ≤ n → ∀ (pre : List Message),
      List.foldl
        (brs_step (chain_rmap r 0 n,
          (r, chain_root author r d0 t0) ::
            chain_bmap author dates texts r 0 n))
        [(r, pre)] (chain_msgs author dates texts r k m)
      = [(r, pre ++ chain_msgs author dates texts r k m)] := by
  intro m
  induction m with
  | zero => intro k hk pre; simp [chain_msgs]
  | succ m ih =>
    intro k hk pre
    rw [chain_msgs, List.foldl_cons]
    have hftp : find_top_parent (chain_rmap r 0 n) (r + (k : Int)) [] = r :=
      ftp_chain r n k (by omega) [] (by intro i hi; simp)
    have hstep : brs_step (chain_rmap r 0 n,
          (r, chain_root author r d0 t0) ::
            chain_bmap author dates texts r 0 n)
        [(r, pre)]
        (chain_msg author (r + (k : Int) + 1) (r + (k : Int))
          (dates k) (texts k))
        = [(r, pre ++ [chain_msg author (r + (k : Int) + 1) (r + (k : Int))
            (dates k) (texts k)])] := by
      rw [brs_step]
      simp only [chain_msg, emptyMsg]
      simp only [hftp]
      simp [alookup, append_entry, alinsert]
    rw [hstep, ih (k + 1) (by omega) _]
    simp [chain_msgs]

/-- The thread map of the chain archive: one entry, mapping the root
identifier to the whole chain in archive order. -/
theorem build_reply_structure_chain_input (author : String)
    (dates texts : Nat → String) (r : Int) (d0 t0 : String) (n : Nat)
    (hn : 1 ≤ n) :
    build_reply_structure (chain_input author dates texts r d0 t0 n)
      = [(r, chain_msgs author dates texts r 0 n)] := by
  rw [build_reply_structure, build_reply_maps_chain_input, chain_input,
    List.foldl_cons]
  have h0 : brs_step (chain_rmap r 0 n,
      (r, chain_root author r d0 t0) ::
        chain_bmap author dates texts r 0 n) []
      (chain_root author r d0 t0) = [] := by
    rw [brs_step]
    simp [chain_root, emptyMsg]
  rw [h0]
  match n, hn with
  | n + 1, _ =>
    rw [chain_msgs, List.foldl_cons]
    have hftp : find_top_parent (chain_rmap r 0 (n + 1))
        (r + ((0 : Nat) : Int)) [] = r :=
      ftp_chain r (n + 1) 0 (by omega) [] (by intro i hi; simp)
    have h1 : brs_step (chain_rmap r 0 (n + 1),
          (r, chain_root author r d0 t0) ::
            chain_bmap author dates texts r 0 (n + 1)) []
        (chain_msg author (r + ((0 : Nat) : Int) + 1) (r + ((0 : Nat) : Int))
          (dates 0) (texts 0))
        = [(r, [chain_msg author (r + ((0 : Nat) : Int) + 1)
            (r + ((0 : Nat) : Int)) (dates 0) (texts 0)])] := by
      rw [brs_step]
      simp only [chain_msg, emptyMsg]
      simp only [hftp]
      simp [alookup, append_entry, alinsert]
    rw [h1, brs_chain_inner author dates texts r d0 t0 (n + 1) n 1
      (by omega) _]
    simp

/-- `_transform_message` on a plain-text content record with no edit
stamp and no attachments. -/
theorem transform_plain_msg (cfg : Config) (m : Message)
    (author uname d tx : String)
    (hty : m.type = some "message") (hf : m.from_id = some author)
    (hu : alookup cfg.users author = some uname) (hd : m.date = some d)
    (he : m.edited = none) (htx : m.text = some (.str tx))
    (hs : m.sticker_emoji = none) (hfile : m.file = none)
    (hphoto : m.photo = none) :
    transform_message cfg m
      = .ok (some ⟨post_kind cfg, m.id, mk_body cfg uname d tx⟩) := by
  rw [transform_message, hty]
  by_cases hdc : cfg.chat_type = "direct_chat"
  · simp [hdc, hf, hu, hd, get_message_text, htx, hs, msg_attach_paths,
      hfile, hphoto, post_kind, mk_body, he, ite_self]
  · simp [hdc, tg_to_mm_type, hf, hu, hd, get_message_text, htx, hs,
      msg_attach_paths, hfile, hphoto, post_kind, mk_body, he, ite_self]

/-- The reply loop on the chain collects each member's stripped content,
in order, leaving the attachment set unchanged. -/
theorem process_chain (cfg : Config) (author uname : String)
    (dates texts : Nat → String) (r : Int)
    (hu : alookup cfg.users author = some uname) :
    ∀ (m k : Nat) (att : List String),
      process_replies cfg (post_kind cfg)
          (chain_msgs author dates texts r k m) att
        = (chain_bodies cfg uname dates texts k m, att) := by
  intro m
  induction m with
  | zero => intro k att; simp [chain_msgs, chain_bodies, process_replies]
  | succ m ih =>
    intro k att
    have ht := transform_plain_msg cfg
      (chain_msg author (r + (k : Int) + 1) (r + (k : Int))
        (dates k) (texts k))
      author uname (dates k) (texts k) rfl rfl hu rfl rfl rfl rfl rfl rfl
    rw [chain_msgs, chain_bodies]
    simp [process_replies, ht, addAll, mk_body, ih (k + 1) att]

/-- Converting the chain members emits nothing (each carries a reply
target) and leaves the attachment set unchanged. -/
theorem convert_chain (cfg : Config) (author uname : String)
    (dates texts : Nat → String) (r : Int)
    (rm : List (Int × List Message))
    (hu : alookup cfg.users author = some uname) :
    ∀ (m k : Nat) (att : List String),
      convert_messages cfg rm (chain_msgs author dates texts r k m) att
        = .ok ([], att) := by
  intro m
  induction m with
  | zero => intro k att; simp [chain_msgs, convert_messages]
  | succ m ih =>
    intro k att
    have ht := transform_plain_msg cfg
      (chain_msg author (r + (k : Int) + 1) (r + (k : Int))
        (dates k) (texts k))
      author uname (dates k) (texts k) rfl rfl hu rfl rfl rfl rfl rfl rfl
    rw [chain_msgs, convert_messages]
    rw [if_neg (by simp [chain_msg, emptyMsg])]
    rw [ht]
    simp [chain_msg, emptyMsg, addAll, mk_body, ih (k + 1) att]

/-- The collected chain contents, as an indexed map over the member
range. -/
theorem chain_bodies_eq_range (cfg : Config) (uname : String)
    (dates texts : Nat → String) :
    ∀ (m k : Nat),
      chain_bodies cfg uname dates texts k m
        = (List.range m).map (fun i =>
            strip_reply_content (mk_body cfg uname (dates (k + i)) (texts (k + i)))) := by
  intro m
  induction m with
  | zero => intro k; simp [chain_bodies]
  | succ m ih =>
    intro k
    rw [chain_bodies, List.range_succ_eq_map, List.map_cons, ih (k + 1),
      List.map_map]
    simp only [Nat.add_zero]
    refine congrArg (_ :: ·) (List.map_congr_left ?_)
    intro i _
    simp only [Function.comp_apply]
    rw [show k + 1 + i = k + (i + 1) by omega]

/-- The full conversion of the chain archive: one root envelope whose
replies list is the collected chain contents. -/
theorem run_conversion_chain (cfg : Config) (author uname d0 t0 : String)
    (dates texts : Nat → String) (r : Int) (n : Nat)
    (hu : alookup cfg.users author = some uname) (hr : r ≠ 0) (hn : 1 ≤ n) :
    run_conversion cfg (chain_input author dates texts r d0 t0 n)
      = .ok ([⟨post_kind cfg, some r, mk_body cfg uname d0 t0,
          some (chain_bodies cfg uname dates texts 0 n)⟩], []) := by
  have htroot := transform_plain_msg cfg (chain_root author r d0 t0)
    author uname d0 t0 rfl rfl hu rfl rfl rfl rfl rfl rfl
  have hpc := process_chain cfg author uname dates texts r hu n 0 []
  have hcc := convert_chain cfg author uname dates texts r
    [(r, chain_msgs author dates texts r 0 n)] hu n 0 []
  rw [run_conversion,
    build_reply_structure_chain_input author dates texts r d0 t0 n hn,
    chain_input, convert_messages,
    if_neg (by simp [chain_root, emptyMsg]), htroot]
  have hattach : attach_replies cfg
      ⟨post_kind cfg, (chain_root author r d0 t0).id, mk_body cfg uname d0 t0⟩
      [(r, chain_msgs author dates texts r 0 n)] [] =
      (⟨post_kind cfg, some r, mk_body cfg uname d0 t0,
        some (chain_bodies cfg uname dates texts 0 n)⟩, []) := by
    rw [attach_replies]
    rw [if_pos (by by_cases hdc : cfg.chat_type = "direct_chat" <;>
      simp [post_kind, hdc])]
    simp only [chain_root, emptyMsg]
    rw [if_neg hr]
    simp [alookup, hpc]
  simp only [chain_root, emptyMsg, mk_body, addAll] at hattach ⊢
  rw [hattach, hcc]

/-! ### Claims -/

/-- C7: the rendered text of any ordered span list is the ordered
concatenation of each span's fragment under the fixed per-kind rule
table; in particular a bold span `a` renders `**a**`, an italic span `x`
renders `_x_`, and a pre span `l1\nl2` renders as a fenced code block
surrounded by newlines. -/
theorem claim7_span_concatenation :
    (∀ (cfg : Config) (l : List TextElem),
      transform_text cfg l = String.join (l.map (span_fragment cfg))) ∧
    (∀ cfg : Config,
      transform_text cfg [.elem (some "bold") (some "a") none] = "**a**") ∧
    (∀ cfg : Config,
      transform_text cfg [.elem (some "italic") (some "x") none] = "_x_") ∧
    (∀ cfg : Config,
      transform_text cfg [.elem (some "pre") (some "l1\nl2") none]
        = "\n```\nl1\nl2\n```\n") := by
  refine ⟨transform_text_eq_join_fragments, ?_, ?_, ?_⟩ <;> intro cfg <;> rfl

/-- C2 (amended): thread-root resolution terminates on every finite
reply index — fuel one past the number of unvisited keys always
suffices, cycles included — and the two-message mutual-reply pair
converts without non-termination; but both messages land in the other's
thread and, each carrying a reply target, neither is emitted, so the
output holds no root envelope at all (not "at least one"). -/
theorem claim2_cycle_termination :
    (∀ (rm : List (Int × Int)) (i : Int) (v : List Int),
      find_top_parent_fuel
          (((rm.map Prod.fst).toFinset \ v.toFinset).card + 1) rm i v
        = some (find_top_parent rm i v)) ∧
    build_reply_structure [cycA, cycB] = [(2, [cycA]), (1, [cycB])] ∧
    run_conversion chanCfg [cycA, cycB] = .ok ([], []) := by
  refine ⟨fun rm i v => find_top_parent_fuel_spec rm _ i v le_rfl, ?_, ?_⟩
  · simp [build_reply_structure, build_reply_maps, brm_step, brs_step,
      find_top_parent, alookup, alinsert, append_entry, cycA, cycB, emptyMsg]
  · simp [run_conversion, convert_messages, build_reply_structure,
      build_reply_maps, brm_step, brs_step, find_top_parent, alookup,
      alinsert, append_entry, cycA, cycB, emptyMsg, chanCfg,
      transform_message, tg_to_mm_type, get_message_text, msg_attach_paths,
      addAll, addPath]

/-- C2 counterexample: the mutual-reply pair converts to an output with
no root envelope, refuting "at least one of the two appears as a root
envelope in the output". -/
theorem claim2_counterexample :
    run_conversion chanCfg [cycA, cycB] = .ok ([], []) := by
  simp [run_conversion, convert_messages, build_reply_structure,
    build_reply_maps, brm_step, brs_step, find_top_parent, alookup,
    alinsert, append_entry, cycA, cycB, emptyMsg, chanCfg,
    transform_message, tg_to_mm_type, get_message_text, msg_attach_paths,
    addAll, addPath]

/-- C1 (amended): a message whose resolved thread root names no record
of the archive is added to no thread; but it is not emitted as a
standalone root envelope either — carrying a reply target, it is skipped
by the emission pass and so is silently dropped from the output. -/
theorem claim1_dangling_reply_dropped (cfg : Config) (msgs : List Message)
    (m : Message) (tgt : Int) (att attF : List String) (out : List OutMsg)
    (hrep : m.reply_to_message_id = some tgt)
    (hdang : alookup (build_reply_maps msgs).2
      (find_top_parent (build_reply_maps msgs).1 tgt []) = none)
    (hok : convert_messages cfg (build_reply_structure msgs) msgs att
      = .ok (out, attF)) :
    (∀ k l, alookup (build_reply_structure msgs) k = some l → m ∉ l) ∧
    emit_root cfg (build_reply_structure msgs) m = none ∧
    out = msgs.filterMap (emit_root cfg (build_reply_structure msgs)) := by
  refine ⟨?_, emit_root_of_reply cfg _ m tgt hrep,
    convert_messages_out cfg _ msgs att out attF hok⟩
  intro k l hk hmem
  obtain ⟨_, tgt', hrep', hftp, hsome⟩ :=
    build_reply_structure_mem msgs k l m hk hmem
  rw [hrep] at hrep'
  injection hrep' with he
  subst he
  rw [← hftp, hdang] at hsome
  simp at hsome

/-- C1 witness: the amended claim applied to the concrete dangling
archive. -/
theorem claim1_witness :
    (∀ k l, alookup (build_reply_structure [dangMsg]) k = some l →
      dangMsg ∉ l) ∧
    emit_root chanCfg (build_reply_structure [dangMsg]) dangMsg = none ∧
    ([] : List OutMsg)
      = [dangMsg].filterMap (emit_root chanCfg (build_reply_structure [dangMsg])) :=
  claim1_dangling_reply_dropped chanCfg [dangMsg] dangMsg 999 [] [] []
    rfl
    (by simp [build_reply_maps, brm_step, find_top_parent, alookup,
      alinsert, dangMsg, emptyMsg])
    (by simp [convert_messages, build_reply_structure, build_reply_maps,
      brm_step, brs_step, find_top_parent, alookup, alinsert, append_entry,
      dangMsg, emptyMsg, chanCfg, transform_message, tg_to_mm_type,
      get_message_text, msg_attach_paths, addAll, addPath])

/-- C1 counterexample: the dangling reply passes transformation and is
added to no thread, yet the output is empty — it is not emitted as its
own standalone root envelope. -/
theorem claim1_counterexample :
    is_transform_some chanCfg dangMsg = true ∧
    build_reply_structure [dangMsg] = [] ∧
    run_conversion chanCfg [dangMsg] = .ok ([], []) := by
  refine ⟨?_, ?_, ?_⟩
  · simp [is_transform_some, transform_message, dangMsg, emptyMsg, chanCfg,
      tg_to_mm_type, alookup, get_message_text, msg_attach_paths]
  · simp [build_reply_structure, build_reply_maps, brm_step, brs_step,
      find_top_parent, alookup, alinsert, append_entry, dangMsg, emptyMsg]
  · simp [run_conversion, convert_messages, build_reply_structure,
      build_reply_maps, brm_step, brs_step, find_top_parent, alookup,
      alinsert, append_entry, dangMsg, emptyMsg, chanCfg, transform_message,
      tg_to_mm_type, get_message_text, msg_attach_paths, addAll, addPath]

/-- C6 (amended): the emitted root envelopes are exactly the per-record
emissions in original archive order — one envelope for every non-service
record that declares no reply target and transforms successfully, and
none for any other record (a service record or one failing the
transformation checks yields no envelope even without a reply target). -/
theorem claim6_root_emission (cfg : Config)
    (rm : List (Int × List Message)) (msgs : List Message)
    (att attF : List String) (out : List OutMsg)
    (hok : convert_messages cfg rm msgs att = .ok (out, attF)) :
    out = msgs.filterMap (emit_root cfg rm) ∧
    ∀ m ∈ msgs, m.type ≠ some "service" → m.reply_to_message_id = none →
      ∀ t, transform_message cfg m = .ok (some t) →
        emit_root cfg rm m = some (attach_replies cfg t rm []).1 :=
  ⟨convert_messages_out cfg rm msgs att out attF hok,
    fun m _ hsvc hrep t ht => emit_root_some_of cfg rm m t hsvc hrep ht⟩

/-- C6 counterexample: a service record declares no reply target, yet
the output holds no root envelope for it. -/
theorem claim6_counterexample :
    svcMsg.reply_to_message_id = none ∧
    run_conversion chanCfg [svcMsg] = .ok ([], []) := by
  refine ⟨rfl, ?_⟩
  simp [run_conversion, convert_messages, build_reply_structure,
    build_reply_maps, brm_step, brs_step, alookup, alinsert, append_entry,
    svcMsg, emptyMsg]

/-- C6 witness: the amended claim applied to a concrete archive of one
plain root message. -/
theorem claim6_witness :
    ([⟨"post", some 1, mk_body chanCfg "alice" "d1" "hello", none⟩] : List OutMsg)
      = [rootA].filterMap (emit_root chanCfg []) ∧
    (∀ m ∈ [rootA], m.type ≠ some "service" → m.reply_to_message_id = none →
      ∀ t, transform_message chanCfg m = .ok (some t) →
        emit_root chanCfg [] m = some (attach_replies chanCfg t [] []).1) :=
  claim6_root_emission chanCfg [] [rootA] [] [] _
    (by simp [convert_messages, attach_replies, alookup, rootA, emptyMsg,
      chanCfg, transform_message, tg_to_mm_type, get_message_text,
      msg_attach_paths, addAll, addPath, mk_body])

/-- C5 (amended): a record lacking its `date` key raises, and when the
record is reached by the top-level pass (every non-service record is) the
failure propagates and aborts the whole conversion; but inside a thread's
reply loop the failure is caught and the reply merely skipped — the loop
behaves as if raising records were absent — so a record processed only as
a nested reply (a service record inside a thread) fails without
propagation. -/
theorem claim5_timestamp_failure (cfg : Config)
    (rm : List (Int × List Message)) (msgs : List Message)
    (att : List String) (m : Message) (ty mt f u : String)
    (hm : m ∈ msgs) (hty : m.type = some ty) (hsvc : ty ≠ "service")
    (hmt : (if cfg.chat_type = "direct_chat" then some "direct_post"
      else tg_to_mm_type ty) = some mt)
    (hf : m.from_id = some f) (hu : alookup cfg.users f = some u)
    (hdate : m.date = none) :
    transform_message cfg m = .error "KeyError: date" ∧
    (∃ e, convert_messages cfg rm msgs att = .error e) ∧
    (∀ (mty : String) (l : List Message) (att' : List String),
      process_replies cfg mty l att' =
        process_replies cfg mty
          (l.filter (fun x => !transform_raises cfg x)) att') := by
  have terr := transform_missing_date cfg m ty mt f u hty hmt hf hu hdate
  have hsvc' : m.type ≠ some "service" := by
    rw [hty]
    intro hc
    injection hc with hc'
    exact hsvc hc'
  exact ⟨terr,
    convert_messages_error cfg rm msgs att m hm hsvc'
      (by rw [transform_raises, terr]),
    fun mty l att' => process_replies_filter_raises cfg mty l att'⟩

/-- C5 witness: the amended claim applied to a concrete content record
lacking its timestamp. -/
theorem claim5_witness :
    transform_message chanCfg badDateMsg = .error "KeyError: date" ∧
    (∃ e, convert_messages chanCfg [] [badDateMsg] [] = .error e) ∧
    (∀ (mty : String) (l : List Message) (att' : List String),
      process_replies chanCfg mty l att' =
        process_replies chanCfg mty
          (l.filter (fun x => !transform_raises chanCfg x)) att') :=
  claim5_timestamp_failure chanCfg [] [badDateMsg] [] badDateMsg
    "message" "post" "user1" "alice"
    (by simp) rfl (by decide) rfl rfl rfl rfl

/-- C5 counterexample: a service record inside a thread in direct-chat
mode lacks its timestamp and raises, yet the conversion completes
successfully — the failure is caught in the reply loop and not
propagated to the caller, refuting propagation "for every record
regardless of whether it is processed as a top-level root or as a nested
reply". -/
theorem claim5_counterexample :
    svcReply.date = none ∧
    transform_raises dirCfg svcReply = true ∧
    run_conversion dirCfg [rootA, svcReply]
      = .ok ([⟨"direct_post", some 1,
          mk_body dirCfg "alice" "d1" "hello", some []⟩], []) := by
  refine ⟨rfl, ?_, ?_⟩
  · simp [transform_raises, transform_message, svcReply, emptyMsg, dirCfg,
      alookup]
  · simp [run_conversion, convert_messages, build_reply_structure,
      build_reply_maps, brm_step, brs_step, find_top_parent, alookup,
      alinsert, append_entry, rootA, svcReply, emptyMsg, dirCfg,
      transform_message, tg_to_mm_type, get_message_text, msg_attach_paths,
      addAll, addPath, attach_replies, process_replies, mk_body]

/-- C4 (amended): every content appended to a root's replies list is the
transformed descendant's content with exactly the channel and team keys
removed; every other field — rendered text, author, creation epoch, edit
epoch, attachment list, and also the direct-recipient set
(`channel_members`), which the source does NOT strip — equals that of
the standalone transformation. -/
theorem claim4_reply_stripping (cfg : Config) (mty : String)
    (l : List Message) (att : List String) (rc : PostBody)
    (h : rc ∈ (process_replies cfg mty l att).1) :
    ∃ m, m ∈ l ∧ ∃ t, transform_message cfg m = .ok (some t) ∧
      t.type = mty ∧ rc = strip_reply_content t.content ∧
      rc.channel = none ∧ rc.team = none ∧
      rc.message = t.content.message ∧ rc.user = t.content.user ∧
      rc.create_at = t.content.create_at ∧ rc.edit_at = t.content.edit_at ∧
      rc.attachments = t.content.attachments ∧
      rc.channel_members = t.content.channel_members := by
  obtain ⟨m, hm, t, ht, hty, hrc⟩ := process_replies_mem cfg mty l att rc h
  subst hrc
  exact ⟨m, hm, t, ht, hty, rfl, rfl, rfl, rfl, rfl, rfl, rfl, rfl, rfl⟩

/-- C4 witness: the amended claim applied to the concrete direct-chat
reply. -/
theorem claim4_witness :
    ∃ m, m ∈ [dReply] ∧ ∃ t,
      transform_message dirCfg m = .ok (some t) ∧
      t.type = "direct_post" ∧
      strip_reply_content (mk_body dirCfg "bob" "d2" "re")
        = strip_reply_content t.content ∧
      (strip_reply_content (mk_body dirCfg "bob" "d2" "re")).channel = none ∧
      (strip_reply_content (mk_body dirCfg "bob" "d2" "re")).team = none ∧
      (strip_reply_content (mk_body dirCfg "bob" "d2" "re")).message
        = t.content.message ∧
      (strip_reply_content (mk_body dirCfg "bob" "d2" "re")).user
        = t.content.user ∧
      (strip_reply_content (mk_body dirCfg "bob" "d2" "re")).create_at
        = t.content.create_at ∧
      (strip_reply_content (mk_body dirCfg "bob" "d2" "re")).edit_at
        = t.content.edit_at ∧
      (strip_reply_content (mk_body dirCfg "bob" "d2" "re")).attachments
        = t.content.attachments ∧
      (strip_reply_content (mk_body dirCfg "bob" "d2" "re")).channel_members
        = t.content.channel_members :=
  claim4_reply_stripping dirCfg "direct_post" [dReply] []
    (strip_reply_content (mk_body dirCfg "bob" "d2" "re"))
    (by simp [process_replies, transform_message, dReply, emptyMsg, dirCfg,
      tg_to_mm_type, alookup, get_message_text, msg_attach_paths, addAll,
      addPath, strip_reply_content, mk_body])

/-- C4 counterexample: in direct-chat mode the nested reply content
retains the direct-recipient set (`channel_members`), refuting the claim
that the destination metadata of a direct chat is omitted from
nested-reply content. -/
theorem claim4_counterexample :
    run_conversion dirCfg [rootA, dReply]
      = .ok ([⟨"direct_post", some 1, mk_body dirCfg "alice" "d1" "hello",
          some [strip_reply_content (mk_body dirCfg "bob" "d2" "re")]⟩], []) ∧
    (strip_reply_content (mk_body dirCfg "bob" "d2" "re")).channel_members
      = some ["alice", "bob"] := by
  refine ⟨?_, rfl⟩
  simp [run_conversion, convert_messages, build_reply_structure,
    build_reply_maps, brm_step, brs_step, find_top_parent, alookup,
    alinsert, append_entry, rootA, dReply, emptyMsg, dirCfg,
    transform_message, tg_to_mm_type, get_message_text, msg_attach_paths,
    addAll, addPath, attach_replies, process_replies, strip_reply_content,
    mk_body]

/-- C8: a transformed record's own attachment descriptor list is exactly
its attachment paths — the photo path, and the file path unless its media
kind is a sticker, which is added to neither list — and every collected
path lands in the shared attachment set; the concrete
photo-root/file-reply archive yields an attachment set of exactly those
two paths while each envelope's own list holds only its own reference. -/
theorem claim8_attachment_accounting :
    (∀ (cfg : Config) (m : Message) (t : MMsg),
      transform_message cfg m = .ok (some t) →
      t.content.attachments = msg_attach_paths m) ∧
    (∀ (m : Message) (p : String), m.photo = some p →
      p ∈ msg_attach_paths m) ∧
    (∀ (m : Message) (p : String), m.file = some p →
      m.media_type ≠ some "sticker" → p ∈ msg_attach_paths m) ∧
    (∀ (m : Message) (p : String), m.file = some p →
      m.media_type = some "sticker" → m.photo ≠ some p →
      p ∉ msg_attach_paths m) ∧
    (∀ (att ps : List String) (p : String), p ∈ ps → p ∈ addAll att ps) ∧
    (run_conversion chanCfg [photoRoot, fileReply]
        = .ok ([⟨"post", some 1, photoRootBody,
            some [strip_reply_content fileReplyBody]⟩],
          ["photos/a.jpg", "files/b.pdf"]) ∧
      photoRootBody.attachments = ["photos/a.jpg"] ∧
      (strip_reply_content fileReplyBody).attachments = ["files/b.pdf"]) := by
  refine ⟨fun cfg m t h => (transform_message_some_spec cfg m t h).2,
    ?_, ?_, ?_, fun att ps p hp => (mem_addAll att ps p).mpr (Or.inr hp),
    ?_, rfl, rfl⟩
  · intro m p hp
    rw [msg_attach_paths, hp]
    simp
  · intro m p hf hst
    simp [msg_attach_paths, hf, hst]
  · intro m p hf hst hph
    match hp : m.photo with
    | none => simp [msg_attach_paths, hf, hst, hp]
    | some q =>
      simp [msg_attach_paths, hf, hst, hp]
      intro hc
      exact hph (by rw [hp, hc])
  · simp [run_conversion, convert_messages, build_reply_structure,
      build_reply_maps, brm_step, brs_step, find_top_parent, alookup,
      alinsert, append_entry, photoRoot, fileReply, emptyMsg, chanCfg,
      transform_message, tg_to_mm_type, get_message_text, msg_attach_paths,
      addAll, addPath, attach_replies, process_replies, strip_reply_content,
      photoRootBody, fileReplyBody]

/-- C8 witness: the attachment rules applied to the concrete photo root
and file reply. -/
theorem claim8_witness :
    "photos/a.jpg" ∈ msg_attach_paths photoRoot ∧
    "files/b.pdf" ∈ msg_attach_paths fileReply :=
  ⟨claim8_attachment_accounting.2.1 photoRoot "photos/a.jpg" rfl,
    claim8_attachment_accounting.2.2.1 fileReply "files/b.pdf" rfl
      (by simp [fileReply, emptyMsg])⟩

/-- C9: when a reply target resolves to a service record carrying an
identifier, neither the service record nor any descendant of its thread
appears anywhere in the output: no emitted envelope carries the service
identifier, every emitted envelope stems from a non-service record
without a reply target, and every nested reply content stems from a
record whose resolved root is a different identifier. -/
theorem claim9_service_thread_dropped (cfg : Config) (msgs : List Message)
    (s : Message) (sid : Int) (att attF : List String) (out : List OutMsg)
    (hs : s ∈ msgs) (hty : s.type = some "service") (hid : s.id = some sid)
    (huniq : ∀ m ∈ msgs, m.id = some sid → m = s)
    (hok : convert_messages cfg (build_reply_structure msgs) msgs att
      = .ok (out, attF)) :
    (∀ e ∈ out, e.id ≠ some sid) ∧
    (∀ e ∈ out, ∃ src, src ∈ msgs ∧ src.type ≠ some "service" ∧
      src.reply_to_message_id = none ∧ e.id = src.id) ∧
    (∀ e ∈ out, ∀ rcs, e.replies = some rcs → ∀ rc ∈ rcs,
      ∃ src, src ∈ msgs ∧ resolved_root msgs src ≠ some sid ∧
        src.reply_to_message_id ≠ none ∧
        ∃ t, transform_message cfg src = .ok (some t) ∧
          rc = strip_reply_content t.content) := by
  have hout := convert_messages_out cfg _ msgs att out attF hok
  have eprov : ∀ e ∈ out, ∃ src, src ∈ msgs ∧
      emit_root cfg (build_reply_structure msgs) src = some e := by
    intro e he
    rw [hout] at he
    obtain ⟨src, hsrc, hemit⟩ := List.mem_filterMap.mp he
    exact ⟨src, hsrc, hemit⟩
  have conj2 : ∀ e ∈ out, ∃ src, src ∈ msgs ∧ src.type ≠ some "service" ∧
      src.reply_to_message_id = none ∧ e.id = src.id := by
    intro e he
    obtain ⟨src, hsrc, hemit⟩ := eprov e he
    obtain ⟨hsvc, hrep, t, ht, he'⟩ := emit_root_some_spec cfg _ src e hemit
    refine ⟨src, hsrc, hsvc, hrep, ?_⟩
    rw [he', (attach_replies_fields cfg t _ []).2.1,
      (transform_message_some_spec cfg src t ht).1]
  have conj1 : ∀ e ∈ out, e.id ≠ some sid := by
    intro e he hesid
    obtain ⟨src, hsrc, hsvc, _, heid⟩ := conj2 e he
    rw [hesid] at heid
    exact hsvc (huniq src hsrc heid.symm ▸ hty)
  refine ⟨conj1, conj2, ?_⟩
  intro e he rcs hrcs rc hrc
  obtain ⟨src, hsrc, hemit⟩ := eprov e he
  obtain ⟨hsvc, hrep, t, ht, he'⟩ := emit_root_some_spec cfg _ src e hemit
  rw [he'] at hrcs
  obtain ⟨i, rs, htid, hz, hrs, hrcs'⟩ :=
    attach_replies_replies_some cfg t _ [] rcs hrcs
  rw [hrcs'] at hrc
  obtain ⟨src', hsrc', t', ht', hty', hrc'⟩ :=
    process_replies_mem cfg t.type rs [] rc hrc
  obtain ⟨hmem', tgt', hrep', hftp', _⟩ :=
    build_reply_structure_mem msgs i rs src' hrs hsrc'
  have hisid : i ≠ sid := by
    intro hc
    apply conj1 e he
    rw [he', (attach_replies_fields cfg t _ []).2.1, htid, hc]
  refine ⟨src', hmem', ?_, ?_, t', ht', hrc'⟩
  · simp only [resolved_root, hrep', hftp']
    intro hc
    injection hc with hc'
    exact hisid hc'
  · rw [hrep']
    simp

/-- C9 witness: the claim applied to the concrete archive of one service
root and one content reply to it, whose conversion emits nothing. -/
theorem claim9_witness :
    (∀ e ∈ ([] : List OutMsg), e.id ≠ some 10) ∧
    (∀ e ∈ ([] : List OutMsg), ∃ src, src ∈ [svcRoot9, svcChild9] ∧
      src.type ≠ some "service" ∧
      src.reply_to_message_id = none ∧ e.id = src.id) ∧
    (∀ e ∈ ([] : List OutMsg), ∀ rcs, e.replies = some rcs → ∀ rc ∈ rcs,
      ∃ src, src ∈ [svcRoot9, svcChild9] ∧
        resolved_root [svcRoot9, svcChild9] src ≠ some 10 ∧
        src.reply_to_message_id ≠ none ∧
        ∃ t, transform_message chanCfg src = .ok (some t) ∧
          rc = strip_reply_content t.content) :=
  claim9_service_thread_dropped chanCfg [svcRoot9, svcChild9] svcRoot9 10
    [] [] []
    (by simp) rfl rfl
    (by
      intro m hm hid10
      rcases List.mem_cons.mp hm with h1 | h1
      · exact h1
      · have h2 : m = svcChild9 := by simpa using h1
        rw [h2] at hid10
        simp [svcChild9, emptyMsg] at hid10)
    (by simp [convert_messages, build_reply_structure, build_reply_maps,
      brm_step, brs_step, find_top_parent, alookup, alinsert, append_entry,
      svcRoot9, svcChild9, emptyMsg, chanCfg, transform_message,
      tg_to_mm_type, get_message_text, msg_attach_paths, addAll, addPath])

/-- C10: a thread map entry under root identifier 0 is never consumed:
the emitted envelope with identifier 0 carries no replies key at all
(the truthiness check treats identifier 0 as missing), every root
envelope stems from a record without a reply target, and every nested
reply content in the whole output stems from a record outside the
identifier-0 descendant list. -/
theorem claim10_zero_id_root (cfg : Config) (msgs : List Message)
    (m0 : Message) (ds : List Message) (att attF : List String)
    (out : List OutMsg)
    (hm0 : m0 ∈ msgs) (hid0 : m0.id = some 0)
    (hrep0 : m0.reply_to_message_id = none)
    (hds : alookup (build_reply_structure msgs) 0 = some ds) (hne : ds ≠ [])
    (hok : convert_messages cfg (build_reply_structure msgs) msgs att
      = .ok (out, attF)) :
    (∀ e ∈ out, e.id = some 0 → e.replies = none) ∧
    (∀ e ∈ out, ∃ src, src ∈ msgs ∧ src.reply_to_message_id = none ∧
      e.id = src.id) ∧
    (∀ e ∈ out, ∀ rcs, e.replies = some rcs → ∀ rc ∈ rcs,
      ∃ src, src ∈ msgs ∧ src ∉ ds ∧
        ∃ t, transform_message cfg src = .ok (some t) ∧
          rc = strip_reply_content t.content) := by
  have hout := convert_messages_out cfg _ msgs att out attF hok
  have eprov : ∀ e ∈ out, ∃ src, src ∈ msgs ∧
      emit_root cfg (build_reply_structure msgs) src = some e := by
    intro e he
    rw [hout] at he
    obtain ⟨src, hsrc, hemit⟩ := List.mem_filterMap.mp he
    exact ⟨src, hsrc, hemit⟩
  refine ⟨?_, ?_, ?_⟩
  · intro e he he0
    obtain ⟨src, hsrc, hemit⟩ := eprov e he
    obtain ⟨hsvc, hrep, t, ht, he'⟩ := emit_root_some_spec cfg _ src e hemit
    have htid : t.id = some 0 := by
      rw [← (attach_replies_fields cfg t _ []).2.1, ← he']
      exact he0
    rw [he']
    exact attach_replies_id_zero cfg t _ [] htid
  · intro e he
    obtain ⟨src, hsrc, hemit⟩ := eprov e he
    obtain ⟨hsvc, hrep, t, ht, he'⟩ := emit_root_some_spec cfg _ src e hemit
    refine ⟨src, hsrc, hrep, ?_⟩
    rw [he', (attach_replies_fields cfg t _ []).2.1,
      (transform_message_some_spec cfg src t ht).1]
  · intro e he rcs hrcs rc hrc
    obtain ⟨src, hsrc, hemit⟩ := eprov e he
    obtain ⟨hsvc, hrep, t, ht, he'⟩ := emit_root_some_spec cfg _ src e hemit
    rw [he'] at hrcs
    obtain ⟨i, rs, htid, hz, hrs, hrcs'⟩ :=
      attach_replies_replies_some cfg t _ [] rcs hrcs
    rw [hrcs'] at hrc
    obtain ⟨src', hsrc', t', ht', hty', hrc'⟩ :=
      process_replies_mem cfg t.type rs [] rc hrc
    obtain ⟨hmem', tgt', hrep', hftp', _⟩ :=
      build_reply_structure_mem msgs i rs src' hrs hsrc'
    refine ⟨src', hmem', ?_, t', ht', hrc'⟩
    intro hin
    obtain ⟨_, tgt'', hrep'', hftp'', _⟩ :=
      build_reply_structure_mem msgs 0 ds src' hds hin
    rw [hrep'] at hrep''
    injection hrep'' with he''
    subst he''
    rw [hftp'] at hftp''
    exact hz hftp''

/-- C10 witness: the claim applied to the concrete archive of a root
with identifier 0 and one reply to it; the emitted root envelope carries
no replies key. -/
theorem claim10_witness :
    (∀ e ∈ [(⟨"post", some 0, mk_body chanCfg "alice" "d1" "zero", none⟩ :
        OutMsg)], e.id = some 0 → e.replies = none) ∧
    (∀ e ∈ [(⟨"post", some 0, mk_body chanCfg "alice" "d1" "zero", none⟩ :
        OutMsg)], ∃ src, src ∈ [zeroRoot, zeroReply] ∧
      src.reply_to_message_id = none ∧ e.id = src.id) ∧
    (∀ e ∈ [(⟨"post", some 0, mk_body chanCfg "alice" "d1" "zero", none⟩ :
        OutMsg)], ∀ rcs, e.replies = some rcs → ∀ rc ∈ rcs,
      ∃ src, src ∈ [zeroRoot, zeroReply] ∧ src ∉ [zeroReply] ∧
        ∃ t, transform_message chanCfg src = .ok (some t) ∧
          rc = strip_reply_content t.content) :=
  claim10_zero_id_root chanCfg [zeroRoot, zeroReply] zeroRoot [zeroReply]
    [] [] _
    (by simp) rfl rfl
    (by simp [build_reply_structure, build_reply_maps, brm_step, brs_step,
      find_top_parent, alookup, alinsert, append_entry, zeroRoot, zeroReply,
      emptyMsg])
    (by simp)
    (by simp [convert_messages, build_reply_structure, build_reply_maps,
      brm_step, brs_step, find_top_parent, alookup, alinsert, append_entry,
      zeroRoot, zeroReply, emptyMsg, chanCfg, transform_message,
      tg_to_mm_type, get_message_text, msg_attach_paths, addAll, addPath,
      attach_replies, mk_body])

/-- C3 (amended): for every acyclic linear reply chain of depth `n ≥ 1`
below a single root whose identifier is non-zero (identifier 0 is
treated as missing by the truthiness check of `_attach_replies`, so its
chain is dropped — see the counterexample) and whose author resolves,
all `n` chain messages end up directly in the single emitted root
envelope's replies list, in original archive order and exactly one
structural level deep (the nested contents are plain post contents,
which by construction — as in the source — carry no replies key). -/
theorem claim3_chain_flattening (cfg : Config) (author uname d0 t0 : String)
    (dates texts : Nat → String) (r : Int) (n : Nat)
    (hu : alookup cfg.users author = some uname) (hr : r ≠ 0) (hn : 1 ≤ n) :
    run_conversion cfg (chain_input author dates texts r d0 t0 n)
      = .ok ([⟨post_kind cfg, some r, mk_body cfg uname d0 t0,
          some ((List.range n).map (fun i =>
            strip_reply_content (mk_body cfg uname (dates i) (texts i))))⟩],
        []) ∧
    ((List.range n).map (fun i =>
      strip_reply_content (mk_body cfg uname (dates i) (texts i)))).length = n := by
  constructor
  · rw [run_conversion_chain cfg author uname d0 t0 dates texts r n hu hr hn,
      chain_bodies_eq_range cfg uname dates texts n 0]
    simp
  · simp

/-- C3 counterexample: a depth-1 chain rooted at identifier 0 — in the
original claim's scope, since the root carries an identifier and passes
transformation — emits a root envelope with no replies list at all: the
descendant is nested nowhere, refuting the claim as stated. -/
theorem claim3_counterexample :
    run_conversion chanCfg
        (chain_input "user1" (fun _ => "dc") (fun _ => "tc") 0 "d0" "t0" 1)
      = .ok ([⟨"post", some 0, mk_body chanCfg "alice" "d0" "t0", none⟩],
        []) := by
  simp [run_conversion, convert_messages, build_reply_structure,
    build_reply_maps, brm_step, brs_step, find_top_parent, alookup, alinsert,
    append_entry, chain_input, chain_msgs, chain_msg, chain_root, emptyMsg,
    chanCfg, transform_message, tg_to_mm_type, get_message_text,
    msg_attach_paths, addAll, addPath, attach_replies, mk_body]

/-- C3 witness: the amended chain claim applied to a concrete depth-1
chain rooted at identifier 1. -/
theorem claim3_witness :
    run_conversion chanCfg
        (chain_input "user1" (fun _ => "dc") (fun _ => "tc") 1 "d0" "t0" 1)
      = .ok ([⟨post_kind chanCfg, some 1, mk_body chanCfg "alice" "d0" "t0",
          some ((List.range 1).map (fun _ =>
            strip_reply_content (mk_body chanCfg "alice" "dc" "tc")))⟩],
        []) ∧
    ((List.range 1).map (fun _ =>
      strip_reply_content (mk_body chanCfg "alice" "dc" "tc"))).length = 1 :=
  claim3_chain_flattening chanCfg "user1" "alice" "d0" "t0"
    (fun _ => "dc") (fun _ => "tc") 1 1 rfl (by decide) (by decide)

end TgMm
